import Mathlib

/-!
# Verification of the claude-menubar core (`claude-usage.10m.py`)

Shallow embedding of the pure core of the SwiftBar plugin:
the pacing engine (`pace_score`), the HSV color mapper (`score_to_rgb`,
via the CPython `colorsys.hsv_to_rgb` algorithm), the pixel canvas with
alpha-composited rounded-rectangle fills (`draw_rounded_rect`), the bar
layout renderer quantities (`fill_h`, `y_fill`, `draw_bar`), and the
pure-Python PNG encoder (`_png_chunk`, `create_png`).

Modelling conventions:
* Python floats are modelled as exact rationals (`ℚ`); `int(·)` is
  `pyInt` (truncation toward zero).
* Python ints are `Int`/`Nat`; bytes are `Nat` values below 256.
* Python list indexing (including negative-index wrap-around) is
  `pyIdx`/`pyGet`/`pySet`; code that can raise returns `Option`.
* `zlib.compress` is modelled as a stored-block zlib stream (a valid
  RFC-1950 stream carrying the raw bytes verbatim plus the Adler-32
  trailer); `zlib.crc32` is the standard reflected CRC-32.
-/

/-- Python `int(q)` for a rational: truncation toward zero. -/
def pyInt (q : ℚ) : Int := if 0 ≤ q then ⌊q⌋ else ⌈q⌉

/-- `pace_score` from the source (lines 59–75): clamps both inputs to
[0,100], then the four-branch policy. -/
def pace_score (remaining_pct time_remaining_pct : ℚ) : ℚ :=
  let r := max 0 (min 100 remaining_pct)
  let t := max 0 (min 100 time_remaining_pct)
  if r ≤ 3 then 0
  else if r ≥ 92 then 1
  else if t ≤ 5 then min 1 (r / 35)
  else min 1 (max 0 ((r / max t 0.1) / 1.3))

/-- CPython `colorsys.hsv_to_rgb` (the library routine called by the
source), translated over exact rationals. -/
def hsv_to_rgb (h s v : ℚ) : ℚ × ℚ × ℚ :=
  if s = 0 then (v, v, v)
  else
    let i0 : Int := pyInt (h * 6)
    let f : ℚ := h * 6 - (i0 : ℚ)
    let p := v * (1 - s)
    let q := v * (1 - s * f)
    let t := v * (1 - s * (1 - f))
    let i := i0 % 6
    if i = 0 then (v, t, p)
    else if i = 1 then (q, v, p)
    else if i = 2 then (p, v, t)
    else if i = 3 then (p, q, v)
    else if i = 4 then (t, p, v)
    else (v, p, q)

/-- `score_to_rgb` from the source (lines 78–82). -/
def score_to_rgb (score : ℚ) : Int × Int × Int × Int :=
  let hue := score * (120 / 360)
  let c := hsv_to_rgb hue 0.78 0.88
  (pyInt (c.1 * 255), pyInt (c.2.1 * 255), pyInt (c.2.2 * 255), 230)

/-- The clamp applied by `pace_score` to each of its inputs. -/
def clamp01h (q : ℚ) : ℚ := max 0 (min 100 q)

/-- An RGBA pixel: a Python 4-tuple of ints. -/
abbrev Pixel := Int × Int × Int × Int

/-- The pixel buffer: a list of rows of pixels. -/
abbrev Canvas := List (List Pixel)

/-- Python list-index resolution: negative indices wrap around once;
anything else out of range raises `IndexError` (modelled as `none`). -/
def pyIdx (n : Nat) (i : Int) : Option Nat :=
  if 0 ≤ i then (if i < (n : Int) then some i.toNat else none)
  else (if 0 ≤ (n : Int) + i then some ((n : Int) + i).toNat else none)

/-- Python `l[i]`. -/
def pyGet {α : Type} (l : List α) (i : Int) : Option α :=
  (pyIdx l.length i).bind (fun k => l[k]?)

/-- Python `l[i] = a`. -/
def pySet {α : Type} (l : List α) (i : Int) (a : α) : Option (List α) :=
  (pyIdx l.length i).map (fun k => l.set k a)

/-- Python `pixels[y][x]`. -/
def pyGet2 (px : Canvas) (y x : Int) : Option Pixel :=
  (pyGet px y).bind (fun row => pyGet row x)

/-- Python `pixels[y][x] = p`. -/
def pySet2 (px : Canvas) (y x : Int) (p : Pixel) : Option Canvas :=
  (pyGet px y).bind (fun row =>
    (pySet row x p).bind (fun row2 => pySet px y row2))

/-- The per-pixel compositing performed by `draw_rounded_rect`
(source lines 126–134): `a = sa/255`, the rgb channels are
`int(src*a + dst*(1-a))`, the alpha is `min(255, sa + da)`. -/
def blend (color old : Pixel) : Pixel :=
  let a : ℚ := (color.2.2.2 : ℚ) / 255
  (pyInt ((color.1 : ℚ) * a + (old.1 : ℚ) * (1 - a)),
   pyInt ((color.2.1 : ℚ) * a + (old.2.1 : ℚ) * (1 - a)),
   pyInt ((color.2.2.1 : ℚ) * a + (old.2.2.1 : ℚ) * (1 - a)),
   min 255 (color.2.2.2 + old.2.2.2))

/-- The per-pixel compositing rule exactly as the spec words it:
`out_rgb = src_rgb*src_a + dst_rgb*(1-src_a)` with `src_a` the source
alpha divided by 255 (rgb truncated to int), and the resulting alpha the
saturating sum `min(255, src_a + dst_a)` of the raw alpha bytes. -/
def blend_claim (src dst : Pixel) : Pixel :=
  let src_a : ℚ := (src.2.2.2 : ℚ) / 255
  (pyInt ((src.1 : ℚ) * src_a + (dst.1 : ℚ) * (1 - src_a)),
   pyInt ((src.2.1 : ℚ) * src_a + (dst.2.1 : ℚ) * (1 - src_a)),
   pyInt ((src.2.2.1 : ℚ) * src_a + (dst.2.2.1 : ℚ) * (1 - src_a)),
   min 255 (src.2.2.2 + dst.2.2.2))

/-- The corner-exclusion test of `draw_rounded_rect` (lines 112–124):
the pixel is drawn unless it falls in a corner square and lies outside
the quarter circle of radius `r` around the inset corner center. -/
def drawPred (x0 y0 x1 y1 r x y : Int) : Bool :=
  if x < x0 + r ∧ y < y0 + r then
    decide ((x - (x0 + r))^2 + (y - (y0 + r))^2 ≤ r * r)
  else if x > x1 - r ∧ y < y0 + r then
    decide ((x - (x1 - r))^2 + (y - (y0 + r))^2 ≤ r * r)
  else if x < x0 + r ∧ y > y1 - r then
    decide ((x - (x0 + r))^2 + (y - (y1 - r))^2 ≤ r * r)
  else if x > x1 - r ∧ y > y1 - r then
    decide ((x - (x1 - r))^2 + (y - (y1 - r))^2 ≤ r * r)
  else true

/-- Python `range(a, b)` over `Int`. -/
def intRange (a b : Int) : List Int :=
  (List.range (b - a).toNat).map (fun (k : Nat) => a + (k : Int))

/-- Body of the inner `for x` loop of `draw_rounded_rect`. -/
def draw_cell (x0 y0 x1 y1 r : Int) (color : Pixel) (px : Canvas) (y x : Int) :
    Option Canvas :=
  if drawPred x0 y0 x1 y1 r x y then
    (pyGet2 px y x).bind (fun old => pySet2 px y x (blend color old))
  else some px

/-- One iteration of the outer `for y` loop of `draw_rounded_rect`. -/
def draw_row (x0 y0 x1 y1 r : Int) (color : Pixel) (px : Canvas) (y : Int) :
    Option Canvas :=
  (intRange x0 (x1 + 1)).foldlM
    (fun c x => draw_cell x0 y0 x1 y1 r color c y x) px

/-- `draw_rounded_rect` from the source (lines 108–134); `none` models a
raised `IndexError`. -/
def draw_rounded_rect (px : Canvas) (x0 y0 x1 y1 r : Int) (color : Pixel) :
    Option Canvas :=
  (intRange y0 (y1 + 1)).foldlM
    (fun c y => draw_row x0 y0 x1 y1 r color c y) px

/-- Bar geometry constants from the source (lines 48–53). -/
def ICON_H : Nat := 22

def BAR_W : Nat := 3

def BAR_H : Nat := 11

def GAP : Nat := 2

def PAD_X : Nat := 1

def CORNER_R : Nat := 1

/-- A tier dict as `generate_bars_image`/`format_pace_hint` see it:
each field is present or missing (Python `dict.get` supplies defaults). -/
structure Bar where
  remaining_pct : Option ℚ
  time_remaining_pct : Option ℚ

/-- `bar.get("remaining_pct", 100)` (source line 148). -/
def bar_rpct (bar : Bar) : ℚ := bar.remaining_pct.getD 100

/-- `bar.get("time_remaining_pct", 100)` (source line 149). -/
def bar_tpct (bar : Bar) : ℚ := bar.time_remaining_pct.getD 100

/-- `fill_h = max(2, int(bh * max(0, min(100, rpct)) / 100.0))`
(source line 151). -/
def fill_h (rpct : ℚ) : Int :=
  max 2 (pyInt ((BAR_H : ℚ) * max 0 (min 100 rpct) / 100))

/-- `y_top = (H - bh) // 2` (source line 145). -/
def y_top : Int := ((ICON_H - BAR_H) / 2 : Nat)

/-- `y_fill = y_top + bh - fill_h` (source line 152). -/
def y_fill (rpct : ℚ) : Int := y_top + (BAR_H : Int) - fill_h rpct

/-- One iteration of the bar loop of `generate_bars_image`
(source lines 147–156): track rectangle, then colored fill rectangle. -/
def draw_bar (px : Canvas) (x : Int) (bar : Bar) : Option Canvas :=
  (draw_rounded_rect px x y_top (x + (BAR_W : Int) - 1)
      (y_top + (BAR_H : Int) - 1) (CORNER_R : Int) (140, 140, 140, 45)).bind
    (fun px1 =>
      draw_rounded_rect px1 x (y_fill (bar_rpct bar)) (x + (BAR_W : Int) - 1)
        (y_top + (BAR_H : Int) - 1) (CORNER_R : Int)
        (score_to_rgb (pace_score (bar_rpct bar) (bar_tpct bar))))

/-- The canvas built by `generate_bars_image` (source lines 137–156),
before PNG encoding and base64 wrapping. -/
def generate_bars_pixels (bars : List Bar) : Option Canvas :=
  let n := bars.length
  let W : Int := (PAD_X : Int) * 2 + (BAR_W : Int) * n + (GAP : Int) * ((n : Int) - 1)
  let px0 : Canvas := List.replicate ICON_H (List.replicate W.toNat ((0, 0, 0, 0) : Pixel))
  (bars.foldlM
    (fun (st : Canvas × Int) bar =>
      (draw_bar st.1 st.2 bar).map (fun px2 => (px2, st.2 + (BAR_W : Int) + (GAP : Int))))
    (px0, (PAD_X : Int))).map Prod.fst

/-- `HINT_STYLE` from the source (line 298). -/
def HINT_STYLE : String := "color=#222222,#dddddd size=12"

/-- `format_pace_hint` from the source (lines 329–343): the pure
dropdown hint line for one tier. -/
def format_pace_hint (tier : Bar) : String :=
  let rpct := tier.remaining_pct.getD (-1)
  let tpct := tier.time_remaining_pct.getD 50
  if rpct < 0 then ""
  else
    let score := pace_score rpct tpct
    let msg :=
      if score ≥ 0.8 then "↳ Comfortable pace"
      else if score ≥ 0.5 then "↳ Burning a bit fast"
      else if score ≥ 0.25 then "↳ Slow down to avoid hitting limit"
      else "⚠️ Near limit — conserve usage"
    msg ++ " | " ++ HINT_STYLE

/-- Total accessor used to state canvas lemmas: row `i`, column `j`. -/
def cv (px : Canvas) (i j : Nat) : Option Pixel := ((px[i]?).getD [])[j]?

/-- Every row of the canvas has width `w`. -/
def rectangular (px : Canvas) (w : Nat) : Prop := ∀ row ∈ px, row.length = w

/-- All four components are integers in [0, 255]. -/
def pixInRange (p : Pixel) : Prop :=
  0 ≤ p.1 ∧ p.1 ≤ 255 ∧ 0 ≤ p.2.1 ∧ p.2.1 ≤ 255 ∧
  0 ≤ p.2.2.1 ∧ p.2.2.1 ≤ 255 ∧ 0 ≤ p.2.2.2 ∧ p.2.2.2 ≤ 255

/-- The arguments of one `draw_rounded_rect` call. -/
structure DrawOp where
  x0 : Int
  y0 : Int
  x1 : Int
  y1 : Int
  r : Int
  color : Pixel

/-- A finite sequence of rounded-rectangle fills. -/
def applyOps (px : Canvas) : List DrawOp → Option Canvas
  | [] => some px
  | op :: ops =>
    (draw_rounded_rect px op.x0 op.y0 op.x1 op.y1 op.r op.color).bind
      (fun px2 => applyOps px2 ops)

/-- The all-transparent canvas `generate_bars_image` starts from
(source line 141). -/
def blankCanvas (w h : Nat) : Canvas :=
  List.replicate h (List.replicate w ((0, 0, 0, 0) : Pixel))

/-- `struct.pack(">I", n)`: 4 big-endian bytes (defined for `n < 2^32`). -/
def be32 (n : Nat) : List Nat :=
  [n / 16777216 % 256, n / 65536 % 256, n / 256 % 256, n % 256]

/-- One bit-step of the reflected CRC-32 (polynomial 0xEDB88320). -/
def crc32_step (c : Nat) : Nat :=
  if c % 2 = 1 then 0xEDB88320 ^^^ (c / 2) else c / 2

/-- One byte of the running CRC-32. -/
def crc32_update (c b : Nat) : Nat := crc32_step^[8] (c ^^^ b)

/-- `zlib.crc32` (the standard CRC-32 over a byte sequence). -/
def crc32 (data : List Nat) : Nat :=
  (data.foldl crc32_update 0xFFFFFFFF) ^^^ 0xFFFFFFFF

/-- One byte of the running Adler-32 state `(a, b)` (RFC 1950). -/
def adler_step (ab : Nat × Nat) (c : Nat) : Nat × Nat :=
  ((ab.1 + c) % 65521, (ab.2 + (ab.1 + c) % 65521) % 65521)

/-- The Adler-32 checksum used in the zlib trailer. -/
def adler32 (data : List Nat) : Nat :=
  let s := data.foldl adler_step (1, 0)
  s.2 * 65536 + s.1

/-- Split a byte sequence into stored-deflate-sized blocks (≤ 65535);
the fuel argument only bounds the recursion depth. -/
def chunkAux : Nat → List Nat → List (List Nat)
  | 0, l => [l]
  | fuel + 1, l =>
    if l.length ≤ 65535 then [l]
    else l.take 65535 :: chunkAux fuel (l.drop 65535)

/-- Split a byte sequence into stored-deflate-sized blocks (≤ 65535). -/
def chunk65535 (l : List Nat) : List (List Nat) := chunkAux l.length l

/-- One stored (uncompressed) deflate block: header bit BFINAL, BTYPE=00,
LEN and its complement little-endian, then the raw bytes. -/
def storedBlock (final : Bool) (b : List Nat) : List Nat :=
  (if final then 1 else 0) :: (b.length % 256) :: (b.length / 256) ::
    ((65535 - b.length) % 256) :: ((65535 - b.length) / 256) :: b

/-- The deflate body: every block stored, the last marked final. -/
def encodeBlocks : List (List Nat) → List Nat
  | [] => []
  | [b] => storedBlock true b
  | b :: b2 :: bs => storedBlock false b ++ encodeBlocks (b2 :: bs)

/-- Model of `zlib.compress`: a valid RFC-1950 zlib stream (CMF/FLG
header `0x78 0x01`, stored deflate blocks carrying the data verbatim,
big-endian Adler-32 trailer). The source's level-9 stream differs in the
deflate block encoding but decompresses to the same bytes. -/
def zlibCompress (data : List Nat) : List Nat :=
  120 :: 1 :: (encodeBlocks (chunk65535 data) ++ be32 (adler32 data))

/-- `_png_chunk` from the source (lines 89–92): length, type, payload,
CRC-32 of type++payload; `none` models `struct.error` on an overlong
payload. -/
def png_chunk (ty data : List Nat) : Option (List Nat) :=
  if data.length < 4294967296 then
    some (be32 data.length ++ (ty ++ data) ++
      be32 (crc32 (ty ++ data) &&& 0xFFFFFFFF))
  else none

/-- `struct.pack("BBBB", r, g, b, a)`: `none` models the `struct.error`
raised when a component is not a byte. -/
def packPixel (p : Pixel) : Option (List Nat) :=
  if 0 ≤ p.1 ∧ p.1 ≤ 255 ∧ 0 ≤ p.2.1 ∧ p.2.1 ≤ 255 ∧
     0 ≤ p.2.2.1 ∧ p.2.2.1 ≤ 255 ∧ 0 ≤ p.2.2.2 ∧ p.2.2.2 ≤ 255 then
    some [p.1.toNat, p.2.1.toNat, p.2.2.1.toNat, p.2.2.2.toNat]
  else none

/-- Pack the first `w` pixels of a row (`pixels[y][x]` for `x < width`);
`none` models `IndexError`/`struct.error`. -/
def packPixRow : Nat → List Pixel → Option (List Nat)
  | 0, _ => some []
  | _ + 1, [] => none
  | n + 1, p :: ps =>
    (packPixel p).bind (fun b4 =>
      (packPixRow n ps).bind (fun rest => some (b4 ++ rest)))

/-- The filtered scanline stream of `create_png` (lines 98–103): each of
the `h` rows is a filter byte 0 followed by `w` RGBA quadruples. -/
def packRows (w : Nat) : Nat → Canvas → Option (List Nat)
  | 0, _ => some []
  | _ + 1, [] => none
  | h + 1, row :: rows =>
    (packPixRow w row).bind (fun rb =>
      (packRows w h rows).bind (fun rest => some ((0 :: rb) ++ rest)))

/-- The 8-byte PNG signature `\x89PNG\r\n\x1a\n`. -/
def pngSignature : List Nat := [137, 80, 78, 71, 13, 10, 26, 10]

/-- The ASCII chunk type `IHDR`. -/
def ihdrType : List Nat := [73, 72, 68, 82]

/-- The ASCII chunk type `IDAT`. -/
def idatType : List Nat := [73, 68, 65, 84]

/-- The ASCII chunk type `IEND`. -/
def iendType : List Nat := [73, 69, 78, 68]

/-- `create_png` from the source (lines 95–105): signature, IHDR
(width, height, bit depth 8, color type 6), one IDAT with the
zlib-compressed scanlines, empty IEND. -/
def create_png (width height : Nat) (pixels : Canvas) : Option (List Nat) :=
  if width < 4294967296 ∧ height < 4294967296 then
    (packRows width height pixels).bind (fun raw =>
      let ihdr := be32 width ++ be32 height ++ [8, 6, 0, 0, 0]
      let compressed := zlibCompress raw
      (png_chunk ihdrType ihdr).bind (fun c1 =>
        (png_chunk idatType compressed).bind (fun c2 =>
          (png_chunk iendType []).bind (fun c3 =>
            some (pngSignature ++ c1 ++ c2 ++ c3)))))
  else none

/-- Read exactly `n` bytes off the front of a stream. -/
def readBytes (n : Nat) (l : List Nat) : Option (List Nat × List Nat) :=
  if n ≤ l.length then some (l.take n, l.drop n) else none

/-- Read a big-endian 32-bit integer. -/
def readBE32 : List Nat → Option (Nat × List Nat)
  | b0 :: b1 :: b2 :: b3 :: rest =>
    some (((b0 * 256 + b1) * 256 + b2) * 256 + b3, rest)
  | _ => none

/-- Inflate a sequence of stored deflate blocks (the only block type the
modelled compressor emits); `fuel` bounds the number of blocks. -/
def parseBlocks : Nat → List Nat → Option (List Nat × List Nat)
  | 0, _ => none
  | _ + 1, [] => none
  | fuel + 1, hdr :: rest =>
    if hdr / 2 % 4 = 0 then
      match rest with
      | l0 :: l1 :: n0 :: n1 :: r2 =>
        let len := l0 + 256 * l1
        if n0 + 256 * n1 = 65535 - len then
          match readBytes len r2 with
          | some (dat, r3) =>
            if hdr % 2 = 1 then some (dat, r3)
            else
              match parseBlocks fuel r3 with
              | some (dat2, r4) => some (dat ++ dat2, r4)
              | none => none
          | none => none
        else none
      | _ => none
    else none

/-- A checking zlib decompressor for the streams `zlibCompress` emits:
verifies the CMF/FLG header, inflates the stored blocks, and verifies
the Adler-32 trailer, requiring the stream to end exactly there. -/
def zlibDecompress (l : List Nat) : Option (List Nat) :=
  match l with
  | cmf :: flg :: rest =>
    if cmf % 16 = 8 ∧ (cmf * 256 + flg) % 31 = 0 ∧ flg / 32 % 2 = 0 then
      match parseBlocks (rest.length + 1) rest with
      | some (dat, r2) =>
        match readBE32 r2 with
        | some (ad, r3) =>
          if ad = adler32 dat ∧ r3 = [] then some dat else none
        | none => none
      | none => none
    else none
  | _ => none

/-- Read one framed PNG chunk and verify its CRC-32. -/
def readChunk (l : List Nat) : Option (List Nat × List Nat × List Nat) :=
  match readBE32 l with
  | some (len, r1) =>
    match readBytes 4 r1 with
    | some (ty, r2) =>
      match readBytes len r2 with
      | some (payload, r3) =>
        match readBE32 r3 with
        | some (crc, r4) =>
          if crc = crc32 (ty ++ payload) &&& 0xFFFFFFFF then
            some (ty, payload, r4)
          else none
        | none => none
      | none => none
    | none => none
  | none => none

/-- Collect the payloads of the consecutive IDAT chunks, stopping (and
not consuming) at IEND. -/
def readIdats : Nat → List Nat → Option (List Nat × List Nat)
  | 0, _ => none
  | fuel + 1, l =>
    match readChunk l with
    | some (ty, payload, rest) =>
      if ty = idatType then
        match readIdats fuel rest with
        | some (dat, r2) => some (payload ++ dat, r2)
        | none => none
      else if ty = iendType then some ([], l)
      else none
    | none => none

/-- Decode one scanline's `w` RGBA quadruples. -/
def parsePixelRow : Nat → List Nat → Option (List Pixel × List Nat)
  | 0, l => some ([], l)
  | n + 1, r :: g :: b :: a :: rest =>
    match parsePixelRow n rest with
    | some (ps, rest2) =>
      some (((r : Int), (g : Int), (b : Int), (a : Int)) :: ps, rest2)
    | none => none
  | _ + 1, _ => none

/-- Decode `h` scanlines, each a filter byte 0 and `w` pixels. -/
def parseRows (w : Nat) : Nat → List Nat → Option (Canvas × List Nat)
  | 0, l => some ([], l)
  | h + 1, 0 :: rest =>
    match parsePixelRow w rest with
    | some (row, r2) =>
      match parseRows w h r2 with
      | some (rows, r3) => some (row :: rows, r3)
      | none => none
    | none => none
  | _ + 1, _ => none

/-- A standard PNG decoder (restricted to the shapes `create_png`
emits, verifying signature, chunk CRCs, IHDR fields, the zlib stream
and the Adler-32 trailer): yields width, height and the pixel grid. -/
def decodePng (l : List Nat) : Option (Nat × Nat × Canvas) :=
  match readBytes 8 l with
  | some (sig, r0) =>
    if sig = pngSignature then
      match readChunk r0 with
      | some (ty1, ihdr, r1) =>
        if ty1 = ihdrType then
          match readBE32 ihdr with
          | some (w, i1) =>
            match readBE32 i1 with
            | some (h, i2) =>
              if i2 = [8, 6, 0, 0, 0] then
                match readIdats (r1.length + 1) r1 with
                | some (idat, r2) =>
                  match readChunk r2 with
                  | some (ty3, pend, r3) =>
                    if ty3 = iendType ∧ pend = [] ∧ r3 = [] then
                      match zlibDecompress idat with
                      | some raw =>
                        match parseRows w h raw with
                        | some (pxs, r4) =>
                          if r4 = [] then some (w, h, pxs) else none
                        | none => none
                      | none => none
                    else none
                  | none => none
                | none => none
              else none
            | none => none
          | none => none
        else none
      | none => none
    else none
  | none => none

lemma pace_branch1 (r t : ℚ) (h : clamp01h r ≤ 3) : pace_score r t = 0 := by
  simp only [pace_score, clamp01h] at *; rw [if_pos h]

lemma pace_branch2 (r t : ℚ) (h1 : ¬ clamp01h r ≤ 3) (h2 : 92 ≤ clamp01h r) :
    pace_score r t = 1 := by
  simp only [pace_score, clamp01h] at *; rw [if_neg h1, if_pos h2]

lemma pace_branch3 (r t : ℚ) (h1 : ¬ clamp01h r ≤ 3) (h2 : ¬ 92 ≤ clamp01h r)
    (h3 : clamp01h t ≤ 5) : pace_score r t = min 1 (clamp01h r / 35) := by
  simp only [pace_score, clamp01h] at *; rw [if_neg h1, if_neg h2, if_pos h3]

lemma pace_branch4 (r t : ℚ) (h1 : ¬ clamp01h r ≤ 3) (h2 : ¬ 92 ≤ clamp01h r)
    (h3 : ¬ clamp01h t ≤ 5) :
    pace_score r t = min 1 (max 0 ((clamp01h r / max (clamp01h t) 0.1) / 1.3)) := by
  simp only [pace_score, clamp01h] at *; rw [if_neg h1, if_neg h2, if_neg h3]

lemma clamp01h_nonneg (q : ℚ) : 0 ≤ clamp01h q := le_max_left _ _

lemma clamp01h_le_100 (q : ℚ) : clamp01h q ≤ 100 :=
  max_le (by norm_num) (min_le_left _ _)

lemma clamp01h_mono {q1 q2 : ℚ} (h : q1 ≤ q2) : clamp01h q1 ≤ clamp01h q2 :=
  max_le_max (le_refl 0) (min_le_min (le_refl 100) h)

lemma pace_nonneg (r t : ℚ) : 0 ≤ pace_score r t := by
  by_cases h1 : clamp01h r ≤ 3
  · rw [pace_branch1 r t h1]
  · by_cases h2 : 92 ≤ clamp01h r
    · rw [pace_branch2 r t h1 h2]; exact zero_le_one
    · by_cases h3 : clamp01h t ≤ 5
      · rw [pace_branch3 r t h1 h2 h3]
        exact le_min zero_le_one (div_nonneg (clamp01h_nonneg r) (by norm_num))
      · rw [pace_branch4 r t h1 h2 h3]
        exact le_min zero_le_one (le_max_left _ _)

lemma pace_le_one (r t : ℚ) : pace_score r t ≤ 1 := by
  by_cases h1 : clamp01h r ≤ 3
  · rw [pace_branch1 r t h1]; exact zero_le_one
  · by_cases h2 : 92 ≤ clamp01h r
    · rw [pace_branch2 r t h1 h2]
    · by_cases h3 : clamp01h t ≤ 5
      · rw [pace_branch3 r t h1 h2 h3]; exact min_le_left _ _
      · rw [pace_branch4 r t h1 h2 h3]; exact min_le_left _ _

/-- C1: `pace_score` clamps both inputs to [0,100] and then applies the
four rules in priority order (clamped remaining ≤ 3 → 0; ≥ 92 → 1;
clamped time ≤ 5 → min(1, r/35); else min(1, max(0, (r / max(t, 0.1)) /
1.3))); in particular `pace_score 2 50 = 0`, `pace_score 95 10 = 1`, and
`pace_score 50 50 = min 1 ((50/50)/1.3)`. -/
theorem C1_pace_score_policy :
    (∀ r t : ℚ, clamp01h r ≤ 3 → pace_score r t = 0) ∧
    (∀ r t : ℚ, ¬ clamp01h r ≤ 3 → 92 ≤ clamp01h r → pace_score r t = 1) ∧
    (∀ r t : ℚ, ¬ clamp01h r ≤ 3 → ¬ 92 ≤ clamp01h r → clamp01h t ≤ 5 →
      pace_score r t = min 1 (clamp01h r / 35)) ∧
    (∀ r t : ℚ, ¬ clamp01h r ≤ 3 → ¬ 92 ≤ clamp01h r → ¬ clamp01h t ≤ 5 →
      pace_score r t = min 1 (max 0 ((clamp01h r / max (clamp01h t) 0.1) / 1.3))) ∧
    pace_score 2 50 = 0 ∧
    pace_score 95 10 = 1 ∧
    pace_score 50 50 = min 1 ((50 / 50) / 1.3) := by
  refine ⟨pace_branch1, pace_branch2, pace_branch3, pace_branch4, ?_, ?_, ?_⟩
  · simp only [pace_score]; norm_num [min_def, max_def]
  · simp only [pace_score]; norm_num [min_def, max_def]
  · simp only [pace_score]; norm_num [min_def, max_def]

/-- Closed-form witness for the branch hypotheses of `C1_pace_score_policy`. -/
theorem C1_pace_score_policy_witness :
    pace_score 2 50 = 0 ∧ pace_score 95 10 = 1 ∧
    pace_score 50 2 = min 1 (clamp01h 50 / 35) ∧
    pace_score 50 50 = min 1 (max 0 ((clamp01h 50 / max (clamp01h 50) 0.1) / 1.3)) := by
  have hc : ∀ q : ℚ, 0 ≤ q → q ≤ 100 → clamp01h q = q := by
    intro q h0 h100
    simp only [clamp01h]
    rw [min_eq_right h100, max_eq_right h0]
  refine ⟨C1_pace_score_policy.1 2 50 ?_,
    C1_pace_score_policy.2.1 95 10 ?_ ?_,
    C1_pace_score_policy.2.2.1 50 2 ?_ ?_ ?_,
    C1_pace_score_policy.2.2.2.1 50 50 ?_ ?_ ?_⟩ <;>
    rw [hc _ (by norm_num) (by norm_num)] <;> norm_num

/-- C6: for all rational inputs, `pace_score` lies in [0,1], and the
result only depends on the clamped inputs (so out-of-range values never
propagate); at the far out-of-range point (−50, 500) it is 0. -/
theorem C6_pace_score_range :
    (∀ r t : ℚ, 0 ≤ pace_score r t ∧ pace_score r t ≤ 1) ∧
    (∀ r t : ℚ,
      pace_score r t = pace_score (max 0 (min 100 r)) (max 0 (min 100 t))) ∧
    pace_score (-50) 500 = 0 := by
  refine ⟨fun r t => ⟨pace_nonneg r t, pace_le_one r t⟩, fun r t => ?_,
    by simp only [pace_score]; norm_num [min_def, max_def]⟩
  simp only [pace_score]
  have hrl : (0:ℚ) ≤ max 0 (min 100 r) := le_max_left _ _
  have hru : max 0 (min 100 r) ≤ 100 :=
    max_le (by norm_num) (min_le_left _ _)
  have htl : (0:ℚ) ≤ max 0 (min 100 t) := le_max_left _ _
  have htu : max 0 (min 100 t) ≤ 100 :=
    max_le (by norm_num) (min_le_left _ _)
  rw [min_eq_right hru, max_eq_right hrl, min_eq_right htu, max_eq_right htl]

/-- C10: for every fixed `t`, `pace_score` is monotone nondecreasing in
the remaining percentage, across all rule boundaries. -/
theorem C10_pace_score_monotone (t r1 r2 : ℚ) (h : r1 ≤ r2) :
    pace_score r1 t ≤ pace_score r2 t := by
  have hc : clamp01h r1 ≤ clamp01h r2 := clamp01h_mono h
  by_cases h1 : clamp01h r1 ≤ 3
  · rw [pace_branch1 r1 t h1]; exact pace_nonneg r2 t
  · have h1b : ¬ clamp01h r2 ≤ 3 := fun hh => h1 (le_trans hc hh)
    by_cases h2 : 92 ≤ clamp01h r2
    · rw [pace_branch2 r2 t h1b h2]; exact pace_le_one r1 t
    · have h2a : ¬ 92 ≤ clamp01h r1 := fun hh => h2 (le_trans hh hc)
      by_cases h3 : clamp01h t ≤ 5
      · rw [pace_branch3 r1 t h1 h2a h3, pace_branch3 r2 t h1b h2 h3]
        exact min_le_min (le_refl 1) (by gcongr)
      · rw [pace_branch4 r1 t h1 h2a h3, pace_branch4 r2 t h1b h2 h3]
        refine min_le_min (le_refl 1) (max_le_max (le_refl 0) ?_)
        have hp : (0:ℚ) < max (clamp01h t) 0.1 :=
          lt_of_lt_of_le (by norm_num) (le_max_right _ _)
        gcongr

/-- Closed-form witness for the monotonicity theorem. -/
theorem C10_pace_score_monotone_witness :
    pace_score 10 50 ≤ pace_score 60 50 :=
  C10_pace_score_monotone 50 10 60 (by norm_num)

/-- C7: `score_to_rgb` is the HSV→RGB conversion at hue `score·120°`
(i.e. hue fraction `score·120/360`), saturation 0.78, value 0.88, alpha
byte 230; the conversion hits the red/yellow/green primaries (with this
saturation and value) at the 0°/60°/120° hue anchors; score 0 is
red-dominant (R > G, R > B) and score 1 is green-dominant (G > R,
G > B). -/
theorem C7_score_to_rgb :
    (∀ s : ℚ, score_to_rgb s =
      (pyInt ((hsv_to_rgb (s * 120 / 360) 0.78 0.88).1 * 255),
       pyInt ((hsv_to_rgb (s * 120 / 360) 0.78 0.88).2.1 * 255),
       pyInt ((hsv_to_rgb (s * 120 / 360) 0.78 0.88).2.2 * 255), 230)) ∧
    hsv_to_rgb 0 0.78 0.88 = (0.88, 0.1936, 0.1936) ∧
    hsv_to_rgb (60/360) 0.78 0.88 = (0.88, 0.88, 0.1936) ∧
    hsv_to_rgb (120/360) 0.78 0.88 = (0.1936, 0.88, 0.1936) ∧
    score_to_rgb 0 = (224, 49, 49, 230) ∧
    score_to_rgb 1 = (49, 224, 49, 230) ∧
    ((score_to_rgb 0).2.1 < (score_to_rgb 0).1 ∧
      (score_to_rgb 0).2.2.1 < (score_to_rgb 0).1) ∧
    ((score_to_rgb 1).1 < (score_to_rgb 1).2.1 ∧
      (score_to_rgb 1).2.2.1 < (score_to_rgb 1).2.1) := by
  have h0 : score_to_rgb 0 = (224, 49, 49, 230) := by
    norm_num [score_to_rgb, hsv_to_rgb, pyInt]
  have h1 : score_to_rgb 1 = (49, 224, 49, 230) := by
    norm_num [score_to_rgb, hsv_to_rgb, pyInt]
  refine ⟨fun s => ?_,
    by norm_num [hsv_to_rgb, pyInt],
    by norm_num [hsv_to_rgb, pyInt],
    by norm_num [hsv_to_rgb, pyInt],
    h0, h1, by rw [h0]; norm_num, by rw [h1]; norm_num⟩
  simp only [score_to_rgb]
  have : s * (120 / 360 : ℚ) = s * 120 / 360 := by ring
  rw [this]

lemma pyIdx_nonneg {n : Nat} {i : Int} (h0 : 0 ≤ i) (hn : i < (n : Int)) :
    pyIdx n i = some i.toNat := by
  simp only [pyIdx, if_pos h0, if_pos hn]

lemma pyGet_eq {α : Type} {l : List α} {i : Int} (h0 : 0 ≤ i)
    (hn : i.toNat < l.length) : pyGet l i = l[i.toNat]? := by
  have hi : i < (l.length : Int) := by omega
  simp [pyGet, pyIdx_nonneg h0 hi]

lemma pySet_eq {α : Type} {l : List α} {i : Int} (a : α) (h0 : 0 ≤ i)
    (hn : i.toNat < l.length) : pySet l i a = some (l.set i.toNat a) := by
  have hi : i < (l.length : Int) := by omega
  simp [pySet, pyIdx_nonneg h0 hi]

lemma pyGet_mem {α : Type} {l : List α} {i : Int} {a : α}
    (h : pyGet l i = some a) : a ∈ l := by
  simp only [pyGet] at h
  cases hk : pyIdx l.length i with
  | none => rw [hk] at h; simp at h
  | some k =>
    rw [hk] at h
    simp only [Option.some_bind] at h
    exact List.getElem?_mem h

lemma cv_eq {px : Canvas} {i : Nat} (hi : i < px.length) (j : Nat) :
    cv px i j = (px[i])[j]? := by
  rw [cv, List.getElem?_eq_getElem hi]
  rfl

lemma cv_isSome {w : Nat} {px : Canvas} (hrect : rectangular px w) {i j : Nat}
    (hi : i < px.length) (hj : j < w) : ∃ p, cv px i j = some p := by
  rw [cv_eq hi]
  have hlen : (px[i]).length = w := hrect _ (List.getElem_mem hi)
  exact ⟨_, List.getElem?_eq_getElem (by omega)⟩

lemma pyGet2_eq {w : Nat} {px : Canvas} (hrect : rectangular px w) {y x : Int}
    (hy0 : 0 ≤ y) (hy : y.toNat < px.length) (hx0 : 0 ≤ x) (hx : x.toNat < w) :
    pyGet2 px y x = cv px y.toNat x.toNat := by
  rw [pyGet2, pyGet_eq hy0 hy, List.getElem?_eq_getElem hy]
  simp only [Option.some_bind]
  have hlen : (px[y.toNat]).length = w := hrect _ (List.getElem_mem hy)
  rw [pyGet_eq hx0 (by omega), cv_eq hy]

lemma pySet2_eq {w : Nat} {px : Canvas} (hrect : rectangular px w) {y x : Int}
    (p : Pixel) (hy0 : 0 ≤ y) (hy : y.toNat < px.length) (hx0 : 0 ≤ x)
    (hx : x.toNat < w) :
    pySet2 px y x p = some (px.set y.toNat ((px[y.toNat]).set x.toNat p)) := by
  have hlen : (px[y.toNat]).length = w := hrect _ (List.getElem_mem hy)
  rw [pySet2, pyGet_eq hy0 hy, List.getElem?_eq_getElem hy]
  simp only [Option.some_bind]
  rw [pySet_eq p hx0 (by omega)]
  simp only [Option.some_bind]
  rw [pySet_eq _ hy0 (by omega)]

lemma rectangular_set2 {w : Nat} {px : Canvas} (hrect : rectangular px w)
    {a b : Nat} (ha : a < px.length) {p : Pixel} :
    rectangular (px.set a ((px[a]).set b p)) w := by
  intro row hrow
  rcases List.mem_or_eq_of_mem_set hrow with h | h
  · exact hrect _ h
  · rw [h, List.length_set]
    exact hrect _ (List.getElem_mem ha)

lemma cv_set {px : Canvas} (a b : Nat) (p : Pixel) (ha : a < px.length)
    (hb : b < (px[a]).length) :
    ∀ i j, cv (px.set a ((px[a]).set b p)) i j =
      if i = a ∧ j = b then some p else cv px i j := by
  intro i j
  by_cases hia : i = a
  · subst hia
    rw [cv_eq (by simpa using ha), cv_eq ha]
    rw [List.getElem_set_self (by simpa using ha)]
    by_cases hjb : j = b
    · subst hjb
      rw [if_pos ⟨rfl, rfl⟩, List.getElem?_set_self hb]
    · rw [if_neg (by tauto), List.getElem?_set_ne (fun hh => hjb hh.symm)]
  · rw [if_neg (by tauto)]
    unfold cv
    rw [List.getElem?_set_ne (fun hh => hia hh.symm)]

lemma mem_intRange {a b x : Int} : x ∈ intRange a b ↔ a ≤ x ∧ x < b := by
  unfold intRange
  rw [List.mem_map]
  constructor
  · rintro ⟨k, hk, rfl⟩
    rw [List.mem_range] at hk
    omega
  · intro h
    refine ⟨(x - a).toNat, ?_, by omega⟩
    rw [List.mem_range]
    omega

lemma intRange_nodup (a b : Int) : (intRange a b).Nodup := by
  unfold intRange
  refine List.Nodup.map ?_ (List.nodup_range _)
  intro m n h
  have h2 : a + (m : Int) = a + (n : Int) := h
  omega

lemma draw_cells_spec (x0 y0 x1 y1 r : Int) (color : Pixel) (w : Nat) :
    ∀ (xs : List Int), xs.Nodup → ∀ (px : Canvas) (y : Int),
      0 ≤ y → y.toNat < px.length → rectangular px w →
      (∀ x ∈ xs, 0 ≤ x ∧ x.toNat < w) →
      ∃ px2, xs.foldlM (fun c x => draw_cell x0 y0 x1 y1 r color c y x) px = some px2 ∧
        px2.length = px.length ∧ rectangular px2 w ∧
        ∀ i j : Nat, cv px2 i j =
          if i = y.toNat ∧ ((j : Int) ∈ xs) ∧ drawPred x0 y0 x1 y1 r (j : Int) y = true
          then (cv px i j).map (blend color) else cv px i j := by
  intro xs
  induction xs with
  | nil =>
    intro _ px y hy0 hy hrect _
    refine ⟨px, by simp, rfl, hrect, ?_⟩
    intro i j
    simp
  | cons x xs ih =>
    intro hnd px y hy0 hy hrect hxs
    obtain ⟨hx0, hxw⟩ := hxs x (List.mem_cons_self x xs)
    obtain ⟨px1, hstep, hlen1, hrect1, hcv1⟩ :
        ∃ px1, draw_cell x0 y0 x1 y1 r color px y x = some px1 ∧
          px1.length = px.length ∧ rectangular px1 w ∧
          ∀ i j : Nat, cv px1 i j =
            if i = y.toNat ∧ j = x.toNat ∧ drawPred x0 y0 x1 y1 r x y = true
            then (cv px i j).map (blend color) else cv px i j := by
      by_cases hpred : drawPred x0 y0 x1 y1 r x y = true
      · have hrowlen : (px[y.toNat]).length = w := hrect _ (List.getElem_mem hy)
        have hcvg : cv px y.toNat x.toNat = some (px[y.toNat][x.toNat]) := by
          rw [cv_eq hy]
          exact List.getElem?_eq_getElem (by omega)
        rw [draw_cell, if_pos hpred, pyGet2_eq hrect hy0 hy hx0 hxw, hcvg]
        simp only [Option.some_bind]
        rw [pySet2_eq hrect _ hy0 hy hx0 hxw]
        refine ⟨_, rfl, List.length_set _ _ _, rectangular_set2 hrect hy, ?_⟩
        intro i j
        rw [cv_set _ _ _ hy (by omega)]
        by_cases hij : i = y.toNat ∧ j = x.toNat
        · rw [if_pos hij, hij.1, hij.2, hcvg]
          simp [hpred]
        · rw [if_neg hij, if_neg (by tauto)]
      · rw [draw_cell, if_neg hpred]
        refine ⟨px, rfl, rfl, hrect, ?_⟩
        intro i j
        rw [if_neg (by tauto)]
    obtain ⟨px2, hfold, hlen2, hrect2, hcv2⟩ :=
      ih (List.nodup_cons.mp hnd).2 px1 y hy0 (by omega) hrect1
        (fun z hz => hxs z (List.mem_cons_of_mem _ hz))
    have hxnot : x ∉ xs := (List.nodup_cons.mp hnd).1
    refine ⟨px2, ?_, by omega, hrect2, ?_⟩
    · rw [List.foldlM_cons, hstep]
      simpa using hfold
    · intro i j
      rw [hcv2 i j, hcv1 i j]
      by_cases hiy : i = y.toNat
      · subst hiy
        by_cases hjx : j = x.toNat
        · subst hjx
          have hjint : ((x.toNat : Nat) : Int) = x := by omega
          have hnm : ((x.toNat : Nat) : Int) ∉ xs := by rw [hjint]; exact hxnot
          rw [if_neg (fun hc => hnm hc.2.1)]
          by_cases hpred : drawPred x0 y0 x1 y1 r ((x.toNat : Nat) : Int) y = true
          · have hpred2 : drawPred x0 y0 x1 y1 r x y = true := by
              rw [← hjint]; exact hpred
            have hmemc : ((x.toNat : Nat) : Int) ∈ x :: xs := by
              rw [hjint]; exact List.mem_cons_self x xs
            rw [if_pos ⟨rfl, rfl, hpred2⟩, if_pos ⟨rfl, hmemc, hpred⟩]
          · have hpred2 : ¬ drawPred x0 y0 x1 y1 r x y = true := by
              rw [← hjint]; exact hpred
            rw [if_neg (by tauto), if_neg (by tauto)]
        · have hne : ((j : Nat) : Int) ≠ x := fun hh => hjx (by omega)
          have hch0 : ¬ (y.toNat = y.toNat ∧ j = x.toNat ∧
              drawPred x0 y0 x1 y1 r x y = true) := fun hc => hjx hc.2.1
          rw [if_neg hch0]
          by_cases hmem : ((j : Nat) : Int) ∈ xs ∧
              drawPred x0 y0 x1 y1 r ((j : Nat) : Int) y = true
          · rw [if_pos ⟨rfl, hmem.1, hmem.2⟩,
              if_pos ⟨rfl, List.mem_cons_of_mem _ hmem.1, hmem.2⟩]
          · have hc2 : ¬ (y.toNat = y.toNat ∧ ((j : Nat) : Int) ∈ x :: xs ∧
                drawPred x0 y0 x1 y1 r ((j : Nat) : Int) y = true) := by
              intro hc
              rcases List.mem_cons.mp hc.2.1 with h | h
              · exact hne h
              · exact hmem ⟨h, hc.2.2⟩
            have hc3 : ¬ (y.toNat = y.toNat ∧ ((j : Nat) : Int) ∈ xs ∧
                drawPred x0 y0 x1 y1 r ((j : Nat) : Int) y = true) := by
              intro hc
              exact hmem ⟨hc.2.1, hc.2.2⟩
            rw [if_neg hc3, if_neg hc2]
      · rw [if_neg (by tauto), if_neg (by tauto), if_neg (by tauto)]

lemma draw_rows_spec (x0 y0 x1 y1 r : Int) (color : Pixel) (w : Nat) :
    ∀ (ys : List Int), ys.Nodup → ∀ (px : Canvas),
      (∀ y ∈ ys, 0 ≤ y ∧ y.toNat < px.length) → rectangular px w →
      (∀ x ∈ intRange x0 (x1 + 1), 0 ≤ x ∧ x.toNat < w) →
      ∃ px2, ys.foldlM (fun c y => draw_row x0 y0 x1 y1 r color c y) px = some px2 ∧
        px2.length = px.length ∧ rectangular px2 w ∧
        ∀ i j : Nat, cv px2 i j =
          if ((i : Int) ∈ ys) ∧ ((j : Int) ∈ intRange x0 (x1 + 1)) ∧
             drawPred x0 y0 x1 y1 r (j : Int) (i : Int) = true
          then (cv px i j).map (blend color) else cv px i j := by
  intro ys
  induction ys with
  | nil =>
    intro _ px _ hrect _
    refine ⟨px, by simp, rfl, hrect, ?_⟩
    intro i j
    simp
  | cons y ys ih =>
    intro hnd px hys hrect hxr
    obtain ⟨hy0, hyl⟩ := hys y (List.mem_cons_self y ys)
    obtain ⟨px1, hstep, hlen1, hrect1, hcv1⟩ :=
      draw_cells_spec x0 y0 x1 y1 r color w (intRange x0 (x1 + 1))
        (intRange_nodup _ _) px y hy0 hyl hrect hxr
    obtain ⟨px2, hfold, hlen2, hrect2, hcv2⟩ :=
      ih (List.nodup_cons.mp hnd).2 px1
        (fun z hz => by
          obtain ⟨h1, h2⟩ := hys z (List.mem_cons_of_mem _ hz)
          exact ⟨h1, by omega⟩)
        hrect1 hxr
    have hynot : y ∉ ys := (List.nodup_cons.mp hnd).1
    refine ⟨px2, ?_, by omega, hrect2, ?_⟩
    · rw [List.foldlM_cons]
      rw [show draw_row x0 y0 x1 y1 r color px y =
        (intRange x0 (x1 + 1)).foldlM
          (fun c x => draw_cell x0 y0 x1 y1 r color c y x) px from rfl, hstep]
      simpa using hfold
    · intro i j
      rw [hcv2 i j, hcv1 i j]
      by_cases hiy : i = y.toNat
      · subst hiy
        have hyint : ((y.toNat : Nat) : Int) = y := by omega
        have hnm : ((y.toNat : Nat) : Int) ∉ ys := by rw [hyint]; exact hynot
        rw [if_neg (fun hc => hnm hc.1)]
        by_cases hcnd : ((j : Nat) : Int) ∈ intRange x0 (x1 + 1) ∧
            drawPred x0 y0 x1 y1 r ((j : Nat) : Int) y = true
        · have hpredc : drawPred x0 y0 x1 y1 r ((j : Nat) : Int)
              ((y.toNat : Nat) : Int) = true := by
            rw [hyint]; exact hcnd.2
          have hmemc : ((y.toNat : Nat) : Int) ∈ y :: ys := by
            rw [hyint]; exact List.mem_cons_self y ys
          rw [if_pos ⟨rfl, hcnd.1, hcnd.2⟩, if_pos ⟨hmemc, hcnd.1, hpredc⟩]
        · have hc2 : ¬ (y.toNat = y.toNat ∧ ((j : Nat) : Int) ∈ intRange x0 (x1 + 1) ∧
              drawPred x0 y0 x1 y1 r ((j : Nat) : Int) y = true) := by
            intro hc
            exact hcnd ⟨hc.2.1, hc.2.2⟩
          have hc3 : ¬ (((y.toNat : Nat) : Int) ∈ y :: ys ∧
              ((j : Nat) : Int) ∈ intRange x0 (x1 + 1) ∧
              drawPred x0 y0 x1 y1 r ((j : Nat) : Int) ((y.toNat : Nat) : Int) = true) := by
            intro hc
            rw [hyint] at hc
            exact hcnd ⟨hc.2.1, hc.2.2⟩
          rw [if_neg hc2, if_neg hc3]
      · have hch0 : ¬ (i = y.toNat ∧ ((j : Nat) : Int) ∈ intRange x0 (x1 + 1) ∧
            drawPred x0 y0 x1 y1 r ((j : Nat) : Int) y = true) := fun hc => hiy hc.1
        rw [if_neg hch0]
        have hne : ((i : Nat) : Int) ≠ y := fun hh => hiy (by omega)
        by_cases hcnd : ((i : Nat) : Int) ∈ ys ∧
            ((j : Nat) : Int) ∈ intRange x0 (x1 + 1) ∧
            drawPred x0 y0 x1 y1 r ((j : Nat) : Int) ((i : Nat) : Int) = true
        · rw [if_pos hcnd,
            if_pos ⟨List.mem_cons_of_mem _ hcnd.1, hcnd.2.1, hcnd.2.2⟩]
        · have hc2 : ¬ (((i : Nat) : Int) ∈ y :: ys ∧
              ((j : Nat) : Int) ∈ intRange x0 (x1 + 1) ∧
              drawPred x0 y0 x1 y1 r ((j : Nat) : Int) ((i : Nat) : Int) = true) := by
            intro hc
            rcases List.mem_cons.mp hc.1 with h | h
            · exact hne h
            · exact hcnd ⟨h, hc.2.1, hc.2.2⟩
          rw [if_neg hcnd, if_neg hc2]

lemma draw_rounded_rect_spec (px : Canvas) (x0 y0 x1 y1 r : Int) (color : Pixel)
    (w : Nat) (hrect : rectangular px w) (hx0 : 0 ≤ x0) (hx1 : x1 < (w : Int))
    (hy0 : 0 ≤ y0) (hy1 : y1 < (px.length : Int)) :
    ∃ px2, draw_rounded_rect px x0 y0 x1 y1 r color = some px2 ∧
      px2.length = px.length ∧ rectangular px2 w ∧
      ∀ i j : Nat, cv px2 i j =
        if (y0 ≤ (i : Int) ∧ (i : Int) ≤ y1) ∧ (x0 ≤ (j : Int) ∧ (j : Int) ≤ x1) ∧
           drawPred x0 y0 x1 y1 r (j : Int) (i : Int) = true
        then (cv px i j).map (blend color) else cv px i j := by
  obtain ⟨px2, hfold, hlen, hrect2, hcv⟩ :=
    draw_rows_spec x0 y0 x1 y1 r color w (intRange y0 (y1 + 1))
      (intRange_nodup _ _) px
      (fun z hz => by
        rw [mem_intRange] at hz
        exact ⟨by omega, by omega⟩)
      hrect
      (fun z hz => by
        rw [mem_intRange] at hz
        exact ⟨by omega, by omega⟩)
  refine ⟨px2, hfold, hlen, hrect2, ?_⟩
  intro i j
  rw [hcv i j]
  by_cases hcnd : ((i : Nat) : Int) ∈ intRange y0 (y1 + 1) ∧
      ((j : Nat) : Int) ∈ intRange x0 (x1 + 1) ∧
      drawPred x0 y0 x1 y1 r ((j : Nat) : Int) ((i : Nat) : Int) = true
  · have hi := mem_intRange.mp hcnd.1
    have hj := mem_intRange.mp hcnd.2.1
    rw [if_pos hcnd, if_pos ⟨⟨hi.1, by omega⟩, ⟨hj.1, by omega⟩, hcnd.2.2⟩]
  · have hc2 : ¬ ((y0 ≤ ((i : Nat) : Int) ∧ ((i : Nat) : Int) ≤ y1) ∧
        (x0 ≤ ((j : Nat) : Int) ∧ ((j : Nat) : Int) ≤ x1) ∧
        drawPred x0 y0 x1 y1 r ((j : Nat) : Int) ((i : Nat) : Int) = true) := by
      intro hc
      exact hcnd ⟨mem_intRange.mpr ⟨hc.1.1, by omega⟩,
        mem_intRange.mpr ⟨hc.2.1.1, by omega⟩, hc.2.2⟩
    rw [if_neg hcnd, if_neg hc2]

/-- C4 (counterexample): a rounded-rectangle fill whose rectangle
overlaps the right/bottom canvas edges does *not* complete: on a 2×2
canvas, the rectangle (0,0)–(2,2) raises `IndexError` (modelled `none`),
because the loop ranges come from the rectangle arguments, not from the
canvas dimensions. -/
theorem C4_draw_rect_overlap_crashes :
    draw_rounded_rect (blankCanvas 2 2) 0 0 2 2 0 (255, 0, 0, 255) = none := by
  decide

/-- C4 (amended): for every rectangle contained in the canvas and every
corner radius — including radii exceeding half the rectangle's width or
height — `draw_rounded_rect` completes; but the bounds come from the
rectangle arguments, so a rectangle overlapping the right/bottom canvas
edge raises `IndexError` instead. -/
theorem C4_draw_rounded_rect_total (px : Canvas) (x0 y0 x1 y1 r : Int)
    (color : Pixel) (w : Nat) (hrect : rectangular px w) (hx0 : 0 ≤ x0)
    (hx1 : x1 < (w : Int)) (hy0 : 0 ≤ y0) (hy1 : y1 < (px.length : Int)) :
    ∃ px2, draw_rounded_rect px x0 y0 x1 y1 r color = some px2 := by
  obtain ⟨px2, h, -, -, -⟩ :=
    draw_rounded_rect_spec px x0 y0 x1 y1 r color w hrect hx0 hx1 hy0 hy1
  exact ⟨px2, h⟩

/-- Witness for `C4_draw_rounded_rect_total`: a 2×2 canvas, a contained
2×2 rectangle, radius 5 (far exceeding half the width/height). -/
theorem C4_draw_rounded_rect_total_witness :
    ∃ px2, draw_rounded_rect (blankCanvas 2 2) 0 0 1 1 5 (10, 20, 30, 40) = some px2 :=
  C4_draw_rounded_rect_total (blankCanvas 2 2) 0 0 1 1 5 (10, 20, 30, 40) 2
    (by unfold rectangular; decide) (by decide) (by decide) (by decide) (by decide)

/-- C5: every pixel written by the rounded-rectangle fill is blended per
`out_rgb = src_rgb*src_a + dst_rgb*(1-src_a)` with `src_a` the source
alpha over 255, and out-alpha the saturating `min(255, src_a + dst_a)`
(the non-standard accumulation rule), as captured by `blend_claim`. -/
theorem C5_compositing_rule (px : Canvas) (x0 y0 x1 y1 r : Int) (color : Pixel)
    (w : Nat) (hrect : rectangular px w) (hx0 : 0 ≤ x0) (hx1 : x1 < (w : Int))
    (hy0 : 0 ≤ y0) (hy1 : y1 < (px.length : Int)) :
    (∀ src dst : Pixel, blend src dst = blend_claim src dst) ∧
    ∃ px2, draw_rounded_rect px x0 y0 x1 y1 r color = some px2 ∧
      ∀ i j : Nat, y0 ≤ (i : Int) → (i : Int) ≤ y1 → x0 ≤ (j : Int) →
        (j : Int) ≤ x1 → drawPred x0 y0 x1 y1 r (j : Int) (i : Int) = true →
        cv px2 i j = (cv px i j).map (blend_claim color) := by
  obtain ⟨px2, h, -, -, hcv⟩ :=
    draw_rounded_rect_spec px x0 y0 x1 y1 r color w hrect hx0 hx1 hy0 hy1
  refine ⟨fun src dst => rfl, px2, h, fun i j h1 h2 h3 h4 h5 => ?_⟩
  rw [hcv i j, if_pos ⟨⟨h1, h2⟩, ⟨h3, h4⟩, h5⟩]
  rfl

/-- Witness for `C5_compositing_rule` on a concrete 2×2 canvas. -/
theorem C5_compositing_rule_witness :
    (∀ src dst : Pixel, blend src dst = blend_claim src dst) ∧
    ∃ px2, draw_rounded_rect (blankCanvas 2 2) 0 0 1 1 0 (10, 20, 30, 40) = some px2 ∧
      ∀ i j : Nat, (0 : Int) ≤ (i : Int) → (i : Int) ≤ 1 → (0 : Int) ≤ (j : Int) →
        (j : Int) ≤ 1 → drawPred 0 0 1 1 0 (j : Int) (i : Int) = true →
        cv px2 i j = (cv (blankCanvas 2 2) i j).map (blend_claim (10, 20, 30, 40)) :=
  C5_compositing_rule (blankCanvas 2 2) 0 0 1 1 0 (10, 20, 30, 40) 2
    (by unfold rectangular; decide) (by decide) (by decide) (by decide) (by decide)

lemma pyInt_eq_floor {q : ℚ} (h : 0 ≤ q) : pyInt q = ⌊q⌋ := if_pos h

/-- C8: the bar renderer computes the fill height as
`max(2, floor(bar_height × clamp(remaining_pct,0,100)/100))`, a bar with
`remaining_pct = 0` still gets a 2-pixel fill, and the fill rectangle
(rows `y_fill … y_top + BAR_H − 1`, as passed by `draw_bar`) is anchored
to the bottom of the bar's vertical extent: its bottom row is the bar's
bottom row and it spans exactly `fill_h` rows. -/
theorem C8_fill_height :
    (∀ rpct : ℚ, fill_h rpct =
      max 2 ⌊(BAR_H : ℚ) * (max 0 (min 100 rpct)) / 100⌋) ∧
    (∀ rpct : ℚ, 2 ≤ fill_h rpct) ∧
    fill_h 0 = 2 ∧
    (∀ rpct : ℚ, (y_top + (BAR_H : Int) - 1) - y_fill rpct + 1 = fill_h rpct) := by
  refine ⟨fun rpct => ?_, fun rpct => le_max_left _ _, ?_, fun rpct => ?_⟩
  · rw [fill_h, pyInt_eq_floor (by positivity)]
  · norm_num [fill_h, pyInt, min_def, max_def]
  · rw [y_fill]
    ring

/-- C3 (counterexample): a tier whose `remaining_pct` is present and
sentinel (−1) is *not* short-circuited to an unknown state by the bar
renderer: `pace_score` clamps it to 0, the fill color is the same red as
a genuine 0%-remaining tier, and the layout fill height is the 2-pixel
minimum — not the 11 pixels a `remaining_pct = 100` tier gets. -/
theorem C3_sentinel_counterexample :
    pace_score (-1) 50 = 0 ∧
    score_to_rgb (pace_score (-1) 50) = (224, 49, 49, 230) ∧
    score_to_rgb (pace_score (-1) 50) = score_to_rgb (pace_score 0 50) ∧
    fill_h (-1) = 2 ∧
    fill_h 100 = 11 ∧
    fill_h (-1) ≠ fill_h 100 := by
  have h1 : pace_score (-1) 50 = 0 := by
    simp only [pace_score]
    norm_num [min_def, max_def]
  have h0 : pace_score 0 50 = 0 := by
    simp only [pace_score]
    norm_num [min_def, max_def]
  have hc : score_to_rgb 0 = (224, 49, 49, 230) := by
    norm_num [score_to_rgb, hsv_to_rgb, pyInt]
  refine ⟨h1, by rw [h1]; exact hc, by rw [h1, h0], ?_, ?_, ?_⟩
  · norm_num [fill_h, pyInt, BAR_H, min_def, max_def]
  · norm_num [fill_h, pyInt, BAR_H, min_def, max_def]
  · norm_num [fill_h, pyInt, BAR_H, min_def, max_def]

/-- C3 (amended): the *textual* formatter short-circuits a present
sentinel `remaining_pct < 0` to an explicit no-data state (empty hint);
the *bar renderer* instead clamps a present sentinel: `pace_score`
returns 0 (red) and the fill height is the 2-pixel minimum; what the
renderer treats as `remaining_pct = 100` is a tier whose
`remaining_pct` key is missing (the `dict.get` default). -/
theorem C3_sentinel_amended :
    (∀ (tier : Bar) (q : ℚ), tier.remaining_pct = some q → q < 0 →
      format_pace_hint tier = "") ∧
    (∀ q t : ℚ, q < 0 → pace_score q t = 0) ∧
    (∀ q : ℚ, q < 0 → fill_h q = 2) ∧
    (∀ t : Option ℚ, bar_rpct ⟨none, t⟩ = 100) := by
  have hclamp : ∀ q : ℚ, q < 0 → max 0 (min 100 q) = 0 := by
    intro q hq
    rw [min_eq_right (by linarith), max_eq_left (by linarith)]
  refine ⟨fun tier q hq hneg => ?_, fun q t hq => ?_, fun q hq => ?_, fun t => rfl⟩
  · rw [format_pace_hint, hq]
    simp only [Option.getD_some]
    rw [if_pos hneg]
  · exact pace_branch1 q t (by rw [clamp01h, hclamp q hq]; norm_num)
  · rw [fill_h, hclamp q hq]
    norm_num [pyInt]

/-- Witness for `C3_sentinel_amended` at a concrete sentinel tier. -/
theorem C3_sentinel_amended_witness :
    format_pace_hint ⟨some (-1), some 50⟩ = "" ∧
    pace_score (-1) 50 = 0 ∧ fill_h (-1) = 2 ∧ bar_rpct ⟨none, some 50⟩ = 100 :=
  ⟨C3_sentinel_amended.1 ⟨some (-1), some 50⟩ (-1) rfl (by norm_num),
   C3_sentinel_amended.2.1 (-1) 50 (by norm_num),
   C3_sentinel_amended.2.2.1 (-1) (by norm_num),
   C3_sentinel_amended.2.2.2 (some 50)⟩

lemma be32_length (n : Nat) : (be32 n).length = 4 := rfl

lemma readBE32_be32 {n : Nat} (h : n < 4294967296) (rest : List Nat) :
    readBE32 (be32 n ++ rest) = some (n, rest) := by
  show readBE32 (n / 16777216 % 256 :: n / 65536 % 256 :: n / 256 % 256 ::
    n % 256 :: rest) = some (n, rest)
  rw [readBE32]
  congr 1
  congr 1
  omega

lemma readBytes_append {n : Nat} {a : List Nat} (b : List Nat)
    (h : a.length = n) : readBytes n (a ++ b) = some (a, b) := by
  rw [readBytes, if_pos (by rw [List.length_append]; omega),
    List.take_left' h, List.drop_left' h]

lemma adler_foldl_bound :
    ∀ (l : List Nat) (ab : Nat × Nat), ab.1 < 65521 → ab.2 < 65521 →
      (l.foldl adler_step ab).1 < 65521 ∧ (l.foldl adler_step ab).2 < 65521 := by
  intro l
  induction l with
  | nil => intro ab h1 h2; exact ⟨h1, h2⟩
  | cons c cs ih =>
    intro ab h1 h2
    rw [List.foldl_cons]
    exact ih _ (by simp [adler_step]; omega) (by simp [adler_step]; omega)

lemma adler32_lt (data : List Nat) : adler32 data < 4294967296 := by
  obtain ⟨h1, h2⟩ := adler_foldl_bound data (1, 0) (by norm_num) (by norm_num)
  rw [adler32]
  omega

lemma crc_mask_lt (c : Nat) : c &&& 0xFFFFFFFF < 4294967296 :=
  lt_of_le_of_lt Nat.and_le_right (by norm_num)

lemma chunkAux_flatten : ∀ (fuel : Nat) (l : List Nat),
    (chunkAux fuel l).flatten = l := by
  intro fuel
  induction fuel with
  | zero => intro l; simp [chunkAux]
  | succ f ih =>
    intro l
    rw [chunkAux]
    split
    · simp
    · rw [List.flatten_cons, ih, List.take_append_drop]

lemma chunkAux_le : ∀ (fuel : Nat) (l : List Nat), l.length ≤ fuel →
    ∀ b ∈ chunkAux fuel l, b.length ≤ 65535 := by
  intro fuel
  induction fuel with
  | zero =>
    intro l hl b hb
    rw [chunkAux] at hb
    simp only [List.mem_singleton] at hb
    subst hb
    omega
  | succ f ih =>
    intro l hl b hb
    rw [chunkAux] at hb
    by_cases hc : l.length ≤ 65535
    · rw [if_pos hc] at hb
      simp only [List.mem_singleton] at hb
      subst hb
      exact hc
    · rw [if_neg hc] at hb
      rcases List.mem_cons.mp hb with h | h
      · subst h
        simp
      · exact ih _ (by simp; omega) b h

lemma chunkAux_ne_nil (fuel : Nat) (l : List Nat) : chunkAux fuel l ≠ [] := by
  cases fuel with
  | zero => simp [chunkAux]
  | succ f =>
    rw [chunkAux]
    split <;> simp

lemma chunkAux_count : ∀ (fuel : Nat) (l : List Nat), l.length ≤ fuel →
    (chunkAux fuel l).length ≤ l.length / 65535 + 1 := by
  intro fuel
  induction fuel with
  | zero =>
    intro l hl
    simp [chunkAux]
  | succ f ih =>
    intro l hl
    rw [chunkAux]
    by_cases hc : l.length ≤ 65535
    · rw [if_pos hc]
      simp
    · rw [if_neg hc]
      rw [List.length_cons]
      have h2 := ih (l.drop 65535) (by simp; omega)
      rw [List.length_drop] at h2
      omega

lemma storedBlock_length (final : Bool) (b : List Nat) :
    (storedBlock final b).length = 5 + b.length := by
  rw [storedBlock]
  simp
  omega

lemma encodeBlocks_length : ∀ (bs : List (List Nat)),
    (encodeBlocks bs).length = 5 * bs.length + bs.flatten.length := by
  intro bs
  induction bs with
  | nil => rfl
  | cons b bs ih =>
    cases bs with
    | nil =>
      rw [encodeBlocks, storedBlock_length]
      simp
    | cons b2 bs2 =>
      rw [encodeBlocks, List.length_append, storedBlock_length, ih]
      simp [List.length_flatten]
      omega

lemma parseBlocks_encodeBlocks :
    ∀ (bs : List (List Nat)) (fuel : Nat) (rest : List Nat), bs ≠ [] →
      (∀ b ∈ bs, b.length ≤ 65535) → bs.length ≤ fuel →
      parseBlocks fuel (encodeBlocks bs ++ rest) = some (bs.flatten, rest) := by
  intro bs
  induction bs with
  | nil => intro fuel rest h; exact absurd rfl h
  | cons b bs ih =>
    intro fuel rest _ hle hfuel
    obtain ⟨f, rfl⟩ : ∃ f, fuel = f + 1 := by
      cases fuel with
      | zero => simp at hfuel
      | succ f => exact ⟨f, rfl⟩
    cases bs with
    | nil =>
      show parseBlocks (f + 1) (storedBlock true b ++ rest) = some ((b :: []).flatten, rest)
      rw [storedBlock]
      show parseBlocks (f + 1) (1 :: b.length % 256 :: b.length / 256 ::
        (65535 - b.length) % 256 :: (65535 - b.length) / 256 :: (b ++ rest)) = _
      rw [parseBlocks]
      rw [if_pos (by norm_num)]
      rw [if_pos (by omega)]
      rw [show b.length % 256 + 256 * (b.length / 256) = b.length from by omega]
      rw [readBytes_append rest rfl]
      simp
    | cons b2 bs2 =>
      have hne2 : (b2 :: bs2 : List (List Nat)) ≠ [] := by simp
      show parseBlocks (f + 1)
        ((storedBlock false b ++ encodeBlocks (b2 :: bs2)) ++ rest) = _
      rw [List.append_assoc, storedBlock]
      show parseBlocks (f + 1) (0 :: b.length % 256 :: b.length / 256 ::
        (65535 - b.length) % 256 :: (65535 - b.length) / 256 ::
        (b ++ (encodeBlocks (b2 :: bs2) ++ rest))) = _
      rw [parseBlocks]
      rw [if_pos (by norm_num)]
      rw [if_pos (by omega)]
      rw [show b.length % 256 + 256 * (b.length / 256) = b.length from by omega]
      rw [readBytes_append _ rfl]
      have hih := ih f rest hne2 (fun z hz => hle z (List.mem_cons_of_mem _ hz))
        (by simp at hfuel ⊢; omega)
      simp [hih]

lemma zlibDecompress_compress (data : List Nat) :
    zlibDecompress (zlibCompress data) = some data := by
  rw [zlibCompress, zlibDecompress]
  rw [if_pos (by norm_num)]
  have hk := chunkAux_count data.length data (le_refl _)
  have hflat : (chunk65535 data).flatten = data := chunkAux_flatten _ _
  have hfuel : (chunk65535 data).length ≤
      (encodeBlocks (chunk65535 data) ++ be32 (adler32 data)).length + 1 := by
    rw [List.length_append, encodeBlocks_length]
    omega
  rw [parseBlocks_encodeBlocks (chunk65535 data) _ _ (chunkAux_ne_nil _ _)
    (chunkAux_le _ _ (le_refl _)) hfuel]
  rw [hflat]
  have hread : readBE32 (be32 (adler32 data)) = some (adler32 data, []) := by
    rw [show be32 (adler32 data) = be32 (adler32 data) ++ [] from
      (List.append_nil _).symm]
    exact readBE32_be32 (adler32_lt data) []
  simp [hread]

lemma readChunk_png_chunk {ty data cb : List Nat} (rest : List Nat)
    (hty : ty.length = 4) (h : png_chunk ty data = some cb) :
    readChunk (cb ++ rest) = some (ty, data, rest) := by
  rw [png_chunk] at h
  by_cases hlen : data.length < 4294967296
  · rw [if_pos hlen] at h
    obtain rfl := Option.some.injEq .. ▸ h.symm
    rw [readChunk]
    rw [List.append_assoc, List.append_assoc, List.append_assoc]
    have h1 : readBytes 4 (ty ++ (data ++
        (be32 (crc32 (ty ++ data) &&& 4294967295) ++ rest))) =
        some (ty, data ++ (be32 (crc32 (ty ++ data) &&& 4294967295) ++ rest)) :=
      readBytes_append _ hty
    have h2 : readBytes data.length (data ++
        (be32 (crc32 (ty ++ data) &&& 4294967295) ++ rest)) =
        some (data, be32 (crc32 (ty ++ data) &&& 4294967295) ++ rest) :=
      readBytes_append _ rfl
    simp only [readBE32_be32 hlen, h1, h2,
      readBE32_be32 (crc_mask_lt (crc32 (ty ++ data))) rest]
    simp
  · rw [if_neg hlen] at h
    exact absurd h (by simp)

lemma readIdats_of_iend {l : List Nat} {p r : List Nat} (fuel : Nat)
    (h : readChunk l = some (iendType, p, r)) :
    readIdats (fuel + 1) l = some ([], l) := by
  rw [readIdats, h]
  simp [idatType, iendType]

lemma readIdats_of_idat {l : List Nat} {payload rest : List Nat} {fuel : Nat}
    {dat r2 : List Nat} (h : readChunk l = some (idatType, payload, rest))
    (h2 : readIdats fuel rest = some (dat, r2)) :
    readIdats (fuel + 1) l = some (payload ++ dat, r2) := by
  rw [readIdats, h]
  simp [h2]

lemma packPixRow_spec :
    ∀ (row : List Pixel), (∀ p ∈ row, pixInRange p) →
      ∃ rb, packPixRow row.length row = some rb ∧ rb.length = 4 * row.length ∧
        ∀ rest, parsePixelRow row.length (rb ++ rest) = some (row, rest) := by
  intro row
  induction row with
  | nil =>
    intro _
    exact ⟨[], rfl, rfl, fun rest => rfl⟩
  | cons p ps ih =>
    intro hr
    obtain ⟨rbs, hpack, hlen, hparse⟩ := ih (fun z hz => hr z (List.mem_cons_of_mem _ hz))
    have hp := hr p (List.mem_cons_self p ps)
    obtain ⟨pr, pg, pb, pa⟩ := p
    obtain ⟨h1, h2, h3, h4, h5, h6, h7, h8⟩ := hp
    refine ⟨[pr.toNat, pg.toNat, pb.toNat, pa.toNat] ++ rbs, ?_, by simp [hlen]; ring, ?_⟩
    · show packPixRow (ps.length + 1) ((pr, pg, pb, pa) :: ps) = _
      rw [packPixRow, packPixel, if_pos ⟨h1, h2, h3, h4, h5, h6, h7, h8⟩]
      simp only [Option.some_bind]
      rw [hpack]
      simp only [Option.some_bind]
    · intro rest
      show parsePixelRow (ps.length + 1) (pr.toNat :: pg.toNat :: pb.toNat ::
        pa.toNat :: (rbs ++ rest)) = _
      rw [parsePixelRow, hparse rest]
      simp only []
      rw [Int.toNat_of_nonneg h1, Int.toNat_of_nonneg h3,
        Int.toNat_of_nonneg h5, Int.toNat_of_nonneg h7]

lemma packRows_spec :
    ∀ (pxs : Canvas) (w : Nat), (∀ row ∈ pxs, row.length = w) →
      (∀ row ∈ pxs, ∀ p ∈ row, pixInRange p) →
      ∃ raw, packRows w pxs.length pxs = some raw ∧
        raw.length = pxs.length * (1 + 4 * w) ∧
        ∀ rest, parseRows w pxs.length (raw ++ rest) = some (pxs, rest) := by
  intro pxs
  induction pxs with
  | nil =>
    intro w _ _
    exact ⟨[], rfl, by simp, fun rest => rfl⟩
  | cons row rows ih =>
    intro w hw hrange
    obtain ⟨raw2, hpack2, hlen2, hparse2⟩ :=
      ih w (fun z hz => hw z (List.mem_cons_of_mem _ hz))
        (fun z hz => hrange z (List.mem_cons_of_mem _ hz))
    have hwr : row.length = w := hw row (List.mem_cons_self row rows)
    obtain ⟨rb, hpackr, hlenr, hparser⟩ :=
      packPixRow_spec row (hrange row (List.mem_cons_self row rows))
    refine ⟨(0 :: rb) ++ raw2, ?_, ?_, ?_⟩
    · show packRows w (rows.length + 1) (row :: rows) = _
      rw [packRows]
      rw [show packPixRow w row = some rb from hwr ▸ hpackr]
      simp only [Option.some_bind]
      rw [hpack2]
      simp only [Option.some_bind]
    · simp only [List.length_append, List.length_cons, hlenr, hlen2, hwr]
      ring
    · intro rest
      rw [List.append_assoc]
      show parseRows w (rows.length + 1) ((0 :: rb) ++ (raw2 ++ rest)) = _
      rw [List.cons_append, parseRows]
      rw [show parsePixelRow w (rb ++ (raw2 ++ rest)) =
        some (row, raw2 ++ rest) from hwr ▸ hparser (raw2 ++ rest)]
      simp [hparse2 rest]

lemma png_chunk_some (ty data : List Nat) (h : data.length < 4294967296) :
    ∃ c, png_chunk ty data = some c := by
  rw [png_chunk, if_pos h]
  exact ⟨_, rfl⟩

lemma png_chunk_length {ty data cb : List Nat} (hty : ty.length = 4)
    (h : png_chunk ty data = some cb) : cb.length = 12 + data.length := by
  rw [png_chunk] at h
  by_cases hlen : data.length < 4294967296
  · rw [if_pos hlen] at h
    obtain rfl := Option.some.injEq .. ▸ h.symm
    simp [be32, hty]
    omega
  · rw [if_neg hlen] at h
    exact absurd h (by simp)

/-- C2: for every well-formed canvas (rows of width `width`, `height`
rows, byte-range RGBA components, dimensions fitting the format),
`create_png` succeeds and produces a PNG stream that a standard decoder
— modelled by the checking `decodePng`, which verifies the signature,
chunk framing with CRC-32 over type++payload, the IHDR fields
(bit depth 8, color type 6), the zlib stream with its Adler-32 trailer,
and the filter-0 scanlines — decodes back to exactly the same width,
height, and pixels. -/
lemma png_roundtrip_aux (width height : Nat) (pixels : Canvas)
    (hh : pixels.length = height)
    (hw : ∀ row ∈ pixels, row.length = width)
    (hrange : ∀ row ∈ pixels, ∀ p ∈ row, pixInRange p)
    (hW : width < 4294967296) (hH : height < 4294967296)
    (hsize : height * (1 + 4 * width) < 2147483648) :
    ∃ png, create_png width height pixels = some png ∧
      decodePng png = some (width, height, pixels) := by
  subst hh
  obtain ⟨raw, hpack, hrawlen, hparse⟩ := packRows_spec pixels width hw hrange
  have hk : (chunk65535 raw).length ≤ raw.length / 65535 + 1 :=
    chunkAux_count raw.length raw (le_refl _)
  have hdiv := Nat.div_le_self raw.length 65535
  have hflat : (chunk65535 raw).flatten = raw := chunkAux_flatten _ _
  have hcomplen : (zlibCompress raw).length < 4294967296 := by
    rw [zlibCompress]
    simp only [List.length_cons, List.length_append, encodeBlocks_length,
      hflat, be32_length]
    omega
  obtain ⟨c1, hc1⟩ := png_chunk_some ihdrType
    (be32 width ++ be32 pixels.length ++ [8, 6, 0, 0, 0]) (by simp [be32])
  obtain ⟨c2, hc2⟩ := png_chunk_some idatType (zlibCompress raw) hcomplen
  obtain ⟨c3, hc3⟩ := png_chunk_some iendType [] (by simp)
  have hcreate : create_png width pixels.length pixels =
      some (pngSignature ++ c1 ++ c2 ++ c3) := by
    rw [create_png, if_pos ⟨hW, hH⟩, hpack]
    simp only [Option.some_bind]
    rw [hc1, hc2, hc3]
    simp only [Option.some_bind]
  refine ⟨_, hcreate, ?_⟩
  rw [List.append_assoc, List.append_assoc]
  have hsig : readBytes 8 (pngSignature ++ (c1 ++ (c2 ++ c3))) =
      some (pngSignature, c1 ++ (c2 ++ c3)) := readBytes_append _ rfl
  have hrc1 : readChunk (c1 ++ (c2 ++ c3)) =
      some (ihdrType, be32 width ++ (be32 pixels.length ++ [8, 6, 0, 0, 0]), c2 ++ c3) := by
    have := readChunk_png_chunk (c2 ++ c3) (rfl : ihdrType.length = 4) hc1
    rwa [List.append_assoc] at this
  have hrc2 : readChunk (c2 ++ c3) = some (idatType, zlibCompress raw, c3) :=
    readChunk_png_chunk _ (rfl : idatType.length = 4) hc2
  have hrc3 : readChunk c3 = some (iendType, [], []) := by
    have := readChunk_png_chunk [] (rfl : iendType.length = 4) hc3
    rwa [List.append_nil] at this
  have hc2len : c2.length = 12 + (zlibCompress raw).length :=
    png_chunk_length (rfl : idatType.length = 4) hc2
  have hc3len : c3.length = 12 + 0 :=
    png_chunk_length (rfl : iendType.length = 4) hc3
  have hri : readIdats ((c2 ++ c3).length + 1) (c2 ++ c3) =
      some (zlibCompress raw, c3) := by
    obtain ⟨m, hm⟩ : ∃ m, (c2 ++ c3).length = m + 1 := by
      rw [List.length_append]
      exact ⟨c2.length + c3.length - 1, by omega⟩
    rw [hm]
    have h1 : readIdats (m + 1) c3 = some ([], c3) := by
      obtain ⟨m2, hm2⟩ : ∃ m2, m = m2 + 1 := by
        rw [List.length_append] at hm
        exact ⟨m - 1, by omega⟩
      rw [hm2]
      exact readIdats_of_iend (m2 + 1) hrc3
    have h2 := readIdats_of_idat hrc2 h1
    rwa [List.append_nil] at h2
  have hparse0 : parseRows width pixels.length raw = some (pixels, []) := by
    have := hparse []
    rwa [List.append_nil] at this
  rw [decodePng]
  simp only [hsig, hrc1, readBE32_be32 hW, readBE32_be32 hH, hri, hrc3,
    zlibDecompress_compress, hparse0, if_pos rfl]
  simp

/-- C2: encoding any well-formed canvas with `create_png` and decoding
the bytes with the standard (checking) PNG decoder reproduces the exact
width, height and RGBA pixels; success of the checking decoder also
certifies the structure: signature, IHDR (bit depth 8, color type 6),
one IDAT holding the zlib stream of the filter-0 scanlines, empty IEND,
every chunk framed as big-endian length, type, payload and CRC-32 over
type++payload. -/
theorem C2_png_roundtrip (width height : Nat) (pixels : Canvas)
    (hh : pixels.length = height)
    (hw : ∀ row ∈ pixels, row.length = width)
    (hrange : ∀ row ∈ pixels, ∀ p ∈ row, pixInRange p)
    (hW : width < 4294967296) (hH : height < 4294967296)
    (hsize : height * (1 + 4 * width) < 2147483648) :
    ∃ png, create_png width height pixels = some png ∧
      decodePng png = some (width, height, pixels) :=
  png_roundtrip_aux width height pixels hh hw hrange hW hH hsize

/-- Witness for `C2_png_roundtrip` on a concrete 1×1 canvas. -/
theorem C2_png_roundtrip_witness :
    ∃ png, create_png 1 1 [[(10, 20, 30, 255)]] = some png ∧
      decodePng png = some (1, 1, [[(10, 20, 30, 255)]]) :=
  C2_png_roundtrip 1 1 [[(10, 20, 30, 255)]] rfl
    (by intro row hrow; simp at hrow; rw [hrow]; rfl)
    (by intro row hrow p hp; simp at hrow hp; rw [hrow] at hp; simp at hp;
        rw [hp]; exact ⟨by norm_num, by norm_num, by norm_num, by norm_num,
          by norm_num, by norm_num, by norm_num, by norm_num⟩)
    (by norm_num) (by norm_num) (by norm_num)

lemma foldlM_option_preserve {α σ : Type} (Q : σ → Prop) (f : σ → α → Option σ)
    (hf : ∀ s a s2, Q s → f s a = some s2 → Q s2) :
    ∀ (l : List α) (s s2 : σ), Q s → l.foldlM f s = some s2 → Q s2 := by
  intro l
  induction l with
  | nil =>
    intro s s2 hq h
    rw [List.foldlM_nil] at h
    cases h
    exact hq
  | cons a l ih =>
    intro s s2 hq h
    rw [List.foldlM_cons] at h
    cases hfa : f s a with
    | none => rw [hfa] at h; simp at h
    | some s1 =>
      rw [hfa] at h
      exact ih s1 s2 (hf s a s1 hq hfa) (by simpa using h)

lemma pySet_some {α : Type} {l l2 : List α} {i : Int} {a : α}
    (h : pySet l i a = some l2) : ∃ k, l2 = l.set k a := by
  rw [pySet] at h
  cases hk : pyIdx l.length i with
  | none => rw [hk] at h; simp at h
  | some k =>
    rw [hk] at h
    simp at h
    exact ⟨k, h.symm⟩

lemma pyGet2_mem {px : Canvas} {y x : Int} {p : Pixel}
    (h : pyGet2 px y x = some p) : ∃ row ∈ px, p ∈ row := by
  rw [pyGet2] at h
  cases hg : pyGet px y with
  | none => rw [hg] at h; simp at h
  | some row =>
    rw [hg] at h
    simp only [Option.some_bind] at h
    exact ⟨row, pyGet_mem hg, pyGet_mem h⟩

lemma pySet2_preserve {px px2 : Canvas} {y x : Int} {v : Pixel}
    (h : pySet2 px y x v = some px2) :
    px2.length = px.length ∧
    (∀ w, rectangular px w → rectangular px2 w) ∧
    (∀ row2 ∈ px2, ∀ p ∈ row2, (∃ row ∈ px, p ∈ row) ∨ p = v) := by
  rw [pySet2] at h
  cases hg : pyGet px y with
  | none => rw [hg] at h; simp at h
  | some row =>
    rw [hg] at h
    simp only [Option.some_bind] at h
    cases hs : pySet row x v with
    | none => rw [hs] at h; simp at h
    | some row2 =>
      rw [hs] at h
      simp only [Option.some_bind] at h
      obtain ⟨k2, rfl⟩ := pySet_some hs
      obtain ⟨k1, rfl⟩ := pySet_some h
      have hrowmem : row ∈ px := pyGet_mem hg
      refine ⟨List.length_set .., ?_, ?_⟩
      · intro w hrect row3 hrow3
        rcases List.mem_or_eq_of_mem_set hrow3 with h3 | h3
        · exact hrect _ h3
        · rw [h3, List.length_set]
          exact hrect _ hrowmem
      · intro row3 hrow3 p hp
        rcases List.mem_or_eq_of_mem_set hrow3 with h3 | h3
        · exact Or.inl ⟨row3, h3, hp⟩
        · rw [h3] at hp
          rcases List.mem_or_eq_of_mem_set hp with h4 | h4
          · exact Or.inl ⟨row, hrowmem, h4⟩
          · exact Or.inr h4

lemma draw_rounded_rect_preserve {H w : Nat} {P : Pixel → Prop} {color : Pixel}
    (hP : ∀ p, P p → P (blend color p)) {px px2 : Canvas} {x0 y0 x1 y1 r : Int}
    (h : draw_rounded_rect px x0 y0 x1 y1 r color = some px2)
    (hlen : px.length = H) (hrect : rectangular px w)
    (hall : ∀ row ∈ px, ∀ p ∈ row, P p) :
    px2.length = H ∧ rectangular px2 w ∧ ∀ row ∈ px2, ∀ p ∈ row, P p := by
  set Q : Canvas → Prop :=
    fun c => c.length = H ∧ rectangular c w ∧ ∀ row ∈ c, ∀ p ∈ row, P p with hQ
  have hcell : ∀ (c : Canvas) (yx : Int × Int) (c2 : Canvas), Q c →
      draw_cell x0 y0 x1 y1 r color c yx.1 yx.2 = some c2 → Q c2 := by
    intro c yx c2 hq hcell
    rw [draw_cell] at hcell
    by_cases hpred : drawPred x0 y0 x1 y1 r yx.2 yx.1 = true
    · rw [if_pos hpred] at hcell
      cases hg : pyGet2 c yx.1 yx.2 with
      | none => rw [hg] at hcell; simp at hcell
      | some old =>
        rw [hg] at hcell
        simp only [Option.some_bind] at hcell
        obtain ⟨hl, hr, hm⟩ := pySet2_preserve hcell
        obtain ⟨rowo, hrowo, holdmem⟩ := pyGet2_mem hg
        refine ⟨by rw [hl]; exact hq.1, hr _ hq.2.1, ?_⟩
        intro row2 hrow2 p hp
        rcases hm row2 hrow2 p hp with ⟨row, hrow, hpm⟩ | hpv
        · exact hq.2.2 row hrow p hpm
        · rw [hpv]
          exact hP old (hq.2.2 rowo hrowo old holdmem)
    · rw [if_neg hpred] at hcell
      cases hcell
      exact hq
  have hrow : ∀ (c : Canvas) (y : Int) (c2 : Canvas), Q c →
      draw_row x0 y0 x1 y1 r color c y = some c2 → Q c2 := by
    intro c y c2 hq hrowstep
    rw [draw_row] at hrowstep
    exact foldlM_option_preserve Q _
      (fun s a s2 hs hstep => hcell s (y, a) s2 hs hstep) _ c c2 hq hrowstep
  rw [draw_rounded_rect] at h
  exact foldlM_option_preserve Q _
    (fun s a s2 hs hstep => hrow s a s2 hs hstep) _ px px2 ⟨hlen, hrect, hall⟩ h

lemma blend_channel_range {s d a : ℚ} (hs0 : 0 ≤ s) (hs1 : s ≤ 255)
    (hd0 : 0 ≤ d) (hd1 : d ≤ 255) (ha0 : 0 ≤ a) (ha1 : a ≤ 1) :
    0 ≤ pyInt (s * a + d * (1 - a)) ∧ pyInt (s * a + d * (1 - a)) ≤ 255 := by
  have h0 : (0:ℚ) ≤ s * a + d * (1 - a) := by nlinarith
  have h255 : s * a + d * (1 - a) ≤ 255 := by nlinarith
  rw [pyInt_eq_floor h0]
  refine ⟨Int.le_floor.mpr (by exact_mod_cast h0), ?_⟩
  calc ⌊s * a + d * (1 - a)⌋ ≤ ⌊(255:ℚ)⌋ := Int.floor_le_floor h255
  _ = 255 := by norm_num

lemma blend_range {c p : Pixel} (hc : pixInRange c) (hp : pixInRange p) :
    pixInRange (blend c p) := by
  obtain ⟨cr, cg, cb, ca⟩ := c
  obtain ⟨pr, pg, pb, pa⟩ := p
  obtain ⟨hc1, hc2, hc3, hc4, hc5, hc6, hc7, hc8⟩ := hc
  obtain ⟨hp1, hp2, hp3, hp4, hp5, hp6, hp7, hp8⟩ := hp
  have ha0 : (0:ℚ) ≤ (ca : ℚ) / 255 := by
    have : (0:ℚ) ≤ (ca : ℚ) := by exact_mod_cast hc7
    positivity
  have ha1 : (ca : ℚ) / 255 ≤ 1 := by
    rw [div_le_one (by norm_num)]
    exact_mod_cast hc8
  have h1 := blend_channel_range (s := (cr : ℚ)) (d := (pr : ℚ))
    (a := (ca : ℚ) / 255) (by exact_mod_cast hc1) (by exact_mod_cast hc2)
    (by exact_mod_cast hp1) (by exact_mod_cast hp2) ha0 ha1
  have h2 := blend_channel_range (s := (cg : ℚ)) (d := (pg : ℚ))
    (a := (ca : ℚ) / 255) (by exact_mod_cast hc3) (by exact_mod_cast hc4)
    (by exact_mod_cast hp3) (by exact_mod_cast hp4) ha0 ha1
  have h3 := blend_channel_range (s := (cb : ℚ)) (d := (pb : ℚ))
    (a := (ca : ℚ) / 255) (by exact_mod_cast hc5) (by exact_mod_cast hc6)
    (by exact_mod_cast hp5) (by exact_mod_cast hp6) ha0 ha1
  refine ⟨h1.1, h1.2, h2.1, h2.2, h3.1, h3.2, ?_, ?_⟩
  · show (0:Int) ≤ min 255 (ca + pa)
    exact le_min (by norm_num) (add_nonneg hc7 hp7)
  · show min 255 (ca + pa) ≤ (255:Int)
    exact min_le_left _ _

lemma applyOps_preserve {H w : Nat} :
    ∀ (ops : List DrawOp) (px out : Canvas),
      (∀ op ∈ ops, pixInRange op.color) →
      px.length = H → rectangular px w → (∀ row ∈ px, ∀ p ∈ row, pixInRange p) →
      applyOps px ops = some out →
      out.length = H ∧ rectangular out w ∧ ∀ row ∈ out, ∀ p ∈ row, pixInRange p := by
  intro ops
  induction ops with
  | nil =>
    intro px out _ hlen hrect hall h
    cases h
    exact ⟨hlen, hrect, hall⟩
  | cons op ops ih =>
    intro px out hcolors hlen hrect hall h
    rw [applyOps] at h
    cases hd : draw_rounded_rect px op.x0 op.y0 op.x1 op.y1 op.r op.color with
    | none => rw [hd] at h; simp at h
    | some px1 =>
      rw [hd] at h
      simp only [Option.some_bind] at h
      have hcop := hcolors op (List.mem_cons_self op ops)
      obtain ⟨hl1, hr1, ha1⟩ := draw_rounded_rect_preserve
        (fun p hp => blend_range hcop hp) hd hlen hrect hall
      exact ih px1 out (fun z hz => hcolors z (List.mem_cons_of_mem _ hz))
        hl1 hr1 ha1 h

lemma blankCanvas_shape (w h : Nat) :
    (blankCanvas w h).length = h ∧ rectangular (blankCanvas w h) w ∧
      ∀ row ∈ blankCanvas w h, ∀ p ∈ row, pixInRange p := by
  refine ⟨List.length_replicate .., ?_, ?_⟩
  · intro row hrow
    rw [List.eq_of_mem_replicate hrow]
    exact List.length_replicate ..
  · intro row hrow p hp
    rw [List.eq_of_mem_replicate hrow] at hp
    rw [List.eq_of_mem_replicate hp]
    exact ⟨by norm_num, by norm_num, by norm_num, by norm_num,
      by norm_num, by norm_num, by norm_num, by norm_num⟩

/-- C9: starting from the all-transparent canvas, after any finite
sequence of rounded-rectangle fills with colors whose components are
integers in [0,255], every pixel still has all components in [0,255];
consequently `create_png` succeeds — no pixel fails the byte-range
check when packing (given format-fitting dimensions). -/
theorem C9_canvas_range_invariant (W H : Nat) (ops : List DrawOp) (out : Canvas)
    (hcolors : ∀ op ∈ ops, pixInRange op.color)
    (hout : applyOps (blankCanvas W H) ops = some out)
    (hW : W < 4294967296) (hH : H < 4294967296)
    (hsize : H * (1 + 4 * W) < 2147483648) :
    (∀ row ∈ out, ∀ p ∈ row, pixInRange p) ∧
    ∃ png, create_png W H out = some png := by
  obtain ⟨hbl, hbr, hba⟩ := blankCanvas_shape W H
  obtain ⟨hl, hr, ha⟩ :=
    applyOps_preserve ops (blankCanvas W H) out hcolors hbl hbr hba hout
  refine ⟨ha, ?_⟩
  obtain ⟨png, hpng, -⟩ := png_roundtrip_aux W H out hl hr ha hW hH hsize
  exact ⟨png, hpng⟩

/-- Witness for `C9_canvas_range_invariant`: one opaque red fill on a
2×2 canvas. -/
theorem C9_canvas_range_invariant_witness :
    ∃ out, applyOps (blankCanvas 2 2) [⟨0, 0, 1, 1, 0, (255, 0, 0, 255)⟩] = some out ∧
      (∀ row ∈ out, ∀ p ∈ row, pixInRange p) ∧
      ∃ png, create_png 2 2 out = some png := by
  have hop : applyOps (blankCanvas 2 2) [⟨0, 0, 1, 1, 0, (255, 0, 0, 255)⟩] =
      some [[(255, 0, 0, 255), (255, 0, 0, 255)],
            [(255, 0, 0, 255), (255, 0, 0, 255)]] := by
    rw [applyOps]
    norm_num [applyOps, draw_rounded_rect, draw_row, draw_cell, intRange,
      List.range, List.range.loop, drawPred, pyGet2, pySet2, pyGet, pySet,
      pyIdx, blend, pyInt, blankCanvas]
    decide
  refine ⟨_, hop, ?_⟩
  exact (C9_canvas_range_invariant 2 2 [⟨0, 0, 1, 1, 0, (255, 0, 0, 255)⟩] _
    (by intro op hop2; simp at hop2; rw [hop2]; exact ⟨by norm_num, by norm_num,
      by norm_num, by norm_num, by norm_num, by norm_num, by norm_num, by norm_num⟩)
    hop (by norm_num) (by norm_num) (by norm_num))
